import Mathlib

/-!
Verification of the audio data-preparation pipeline in `ml/prepare-data.cc`
(beaglemic-doa-ml).  The pipeline's pure computational core — second→offset
conversion, silence calibration, chunk classification, channel rotation and
differential normalization, and the two output sinks — is embedded below as
executable Lean definitions, translated directly from the C++ source.

Modelling conventions:
* `int32_t` samples are modelled as `ℤ`.  None of the verified properties
  depends on 32-bit wraparound, and the embedded arithmetic stays in the
  exact range of the source computations on the inputs considered.
* The C `float`/`double` constants are embedded by their exact rational
  values: `0.5f` and `1.0f` are exact, `10.0f` is exact, and the literal
  `1.1f` denotes the IEEE single-precision value `9227469 / 2^23`.
  The products computed in `double` below are exactly representable for the
  magnitudes involved, so truncating conversion to an integer type is
  modelled by `Int.floor` (all quantities are nonnegative).
* `std::rand()` is modelled by an oracle stream of naturals; the source
  takes the draw modulo 100, and so does the embedding.
* File-system writes are modelled by `OutRecord` values; the sprintf
  formatting of the per-rotation directory names (angle/elevation/distance)
  is abstracted by the rotation offset index, which determines it.
-/

namespace PrepareData

/-- `const int NCHANNELS = 8;` (prepare-data.cc line 34). -/
def NCHANNELS : ℕ := 8

/-- `const int SAMPLES_PER_SECOND = 24000;` (line 36). -/
def SAMPLES_PER_SECOND : ℕ := 24000

/-- `const float INITIAL_SKIP_S = 0.5;` (line 39); the float is exact. -/
def INITIAL_SKIP_S : ℚ := 1 / 2

/-- `const float SILENCE_TRAINING_S = 1.0;` (line 40); the float is exact. -/
def SILENCE_TRAINING_S : ℚ := 1

/-- `const float VALID_SAMPLE_THRESHOLD = 1.1;` (line 41).
The IEEE single-precision value of the literal `1.1` is exactly
`9227469 / 2^23`. -/
def VALID_SAMPLE_THRESHOLD : ℚ := 9227469 / 8388608

/-- `const float VALID_SAMPLES_PERCENT = 10;` (line 42); the float is exact. -/
def VALID_SAMPLES_PERCENT : ℚ := 10

/-- `const int OUT_NSAMPLES = 512;` (line 45). -/
def OUT_NSAMPLES : ℕ := 512

/-- `const size_t OUT_DATASET_NWORDS = OUT_NSAMPLES * NCHANNELS;` (line 48). -/
def OUT_DATASET_NWORDS : ℕ := OUT_NSAMPLES * NCHANNELS

/-- `const int OUT_DROP_PERCENT = 95;` (line 53). -/
def OUT_DROP_PERCENT : ℕ := 95

/-- `secs2offs` (lines 263-268): word offset for a duration in seconds,
`off_t(std::floor(double(SAMPLES_PER_SECOND) * nsecs)) * NCHANNELS`.
For the durations used (0.5 s and 1.0 s at 24000 Hz) the double product is
exact, so `Int.floor` is the exact value of the source computation. -/
def secs2offs (nsecs : ℚ) : ℤ :=
  ⌊(SAMPLES_PER_SECOND : ℚ) * nsecs⌋ * NCHANNELS

/-- The calibration scan (line 307):
`labs(*std::max_element(raw + a, raw + b, int32_cmp_abs))`, i.e. the maximum
absolute sample value over the half-open window `[a, b)` of the buffer.
`max_element` returns an element of maximal `labs`; applying `labs` to it
yields the fold below.  (An empty window would dereference the end iterator
in the source; `process_raw_audio_file` guards `a < len` and `b < len`,
and the embedding returns 0 on an empty window.) -/
def silence_max (buf : List ℤ) (a b : ℕ) : ℕ :=
  (((buf.drop a).take (b - a)).map Int.natAbs).foldl max 0

/-- Line 309: `const int32_t silence_threshold = double(silence_max) * VALID_SAMPLE_THRESHOLD;`.
The double product is exact for `smax < 2^29` and the truncating conversion
of the nonnegative result is `Int.floor`. -/
def silence_threshold (smax : ℕ) : ℤ :=
  ⌊(smax : ℚ) * VALID_SAMPLE_THRESHOLD⌋

/-- Line 311: `const off_t chunk_len = OUT_NSAMPLES * NCHANNELS;`. -/
def chunk_len : ℕ := OUT_NSAMPLES * NCHANNELS

/-- Line 312:
`const int nvals_threshold = double(chunk_len) * VALID_SAMPLES_PERCENT / 100.0;`.
The value `409.6` lies strictly between consecutive integers, so the
truncating `int` conversion of its double approximation is its floor. -/
def nvals_threshold : ℤ :=
  ⌊(chunk_len : ℚ) * VALID_SAMPLES_PERCENT / 100⌋

/-- The classifier predicate (lines 331-333):
`labs(val) >= silence_threshold`. -/
def cmp_to_threshold (thr : ℤ) (val : ℤ) : Bool :=
  decide (thr ≤ (val.natAbs : ℤ))

/-- Lines 335-337: `std::count_if(chunk, chunk + chunk_len, cmp_to_threshold)`. -/
def nvals (thr : ℤ) (chunk : List ℤ) : ℕ :=
  chunk.countP (cmp_to_threshold thr)

/-- Line 339: `const bool is_silence = (nvals >= nvals_threshold);`. -/
def is_silence (thr : ℤ) (chunk : List ℤ) : Bool :=
  decide (nvals_threshold ≤ (nvals thr chunk : ℤ))

/-- The chunk at word offset `i`: `&m->raw[chunk_i]`, read for `chunk_len`
words (line 329 together with the uses on lines 335-341). -/
def chunkAt (buf : List ℤ) (i : ℕ) : List ℤ :=
  (buf.drop i).take chunk_len

/-- The chunk loop header (lines 326-328):
`for (chunk_i = data_scan_i; chunk_i <= m->len - chunk_len; chunk_i += chunk_len)`.
`off_t` is a signed type, so the guard is stated over `ℤ`. -/
def chunkStarts (len i : ℕ) : List ℕ :=
  if h : (i : ℤ) ≤ (len : ℤ) - (chunk_len : ℤ) then
    i :: chunkStarts len (i + chunk_len)
  else
    []
termination_by len - i
decreasing_by
  simp only [show chunk_len = 4096 from rfl] at *
  omega

/-- The classification outcome of one input file: the calibrated threshold
and the labelled chunk offsets. -/
structure ProcessResult where
  threshold : ℤ
  chunks : List (ℕ × Bool)
deriving DecidableEq

/-- `process_raw_audio_file` (lines 293-348), restricted to its pure
content: the length guard (lines 301-305), the calibration (lines 307-309)
and the classification loop (lines 326-343).  The per-chunk sink call is
modelled separately (`silence_save_chunk` / `dataset_save_chunk`); the
fatal length check is an `Except.error`. -/
def process_raw_audio_file (buf : List ℤ) : Except String ProcessResult :=
  let len : ℤ := buf.length
  let silence_scan_i : ℤ := secs2offs INITIAL_SKIP_S
  let data_scan_i : ℤ := silence_scan_i + secs2offs SILENCE_TRAINING_S
  if silence_scan_i ≥ len ∨ data_scan_i ≥ len then
    Except.error "input file is too short"
  else
    let smax := silence_max buf silence_scan_i.toNat data_scan_i.toNat
    let thr := silence_threshold smax
    Except.ok ⟨thr, (chunkStarts buf.length data_scan_i.toNat).map
      (fun i => (i, is_silence thr (chunkAt buf i)))⟩

/-- Where an output record lands.  The silence sink writes under the fixed
`"silence"` directory; the directional sink writes under the per-rotation
directory precomputed in `angle_dirs[mic_offs]` (lines 198-208), which is
determined by the rotation offset, so the embedding indexes it by that
offset. -/
inductive OutDir where
  | silenceDir : OutDir
  | angleDir (mic_offs : ℕ) : OutDir
deriving DecidableEq

/-- One record written to disk: its directory, the chunk start offset used
in its file name, and the `OUT_DATASET_NWORDS` words of payload. -/
structure OutRecord where
  dir : OutDir
  chunk_i : ℕ
  data : List ℤ
deriving DecidableEq

/-- `base_output::save_to_file` (lines 134-149): one `std::rand()` draw is
taken modulo 100 and the record is dropped when the draw is below
`OUT_DROP_PERCENT`; otherwise exactly one record is written. -/
def save_to_file (rnd : ℕ) (dir : OutDir) (arr : List ℤ) (chunk_i : ℕ) :
    List OutRecord :=
  if rnd % 100 < OUT_DROP_PERCENT then [] else [⟨dir, chunk_i, arr⟩]

/-- `silence_output::save_chunk` (lines 162-169): ignores the label, calls
`save_to_file("silence", ...)` once, and returns `true` unconditionally.
`rnd` is the value of the single `std::rand()` call made inside. -/
def silence_save_chunk (arr : List ℤ) (chunk_i : ℕ) (is_sil : Bool)
    (rnd : ℕ) : Bool × List OutRecord :=
  (true, save_to_file rnd OutDir.silenceDir arr chunk_i)

/-- The rotation pass for one frame (lines 238-240):
`data[si + (chi + mic_offs) % NCHANNELS] = arr[si + chi]` for
`chi = 0 .. NCHANNELS-1`.  The C array `data` is uninitialized before the
writes; since the eight target indices cover every residue, every in-range
entry is assigned, and the arbitrary initial content (taken as 0 here) is
irrelevant. -/
def rotateFrame (arr : ℕ → ℤ) (mic_offs : ℕ) : ℕ → ℤ :=
  (List.range NCHANNELS).foldl
    (fun data chi => Function.update data ((chi + mic_offs) % NCHANNELS) (arr chi))
    (fun _ => 0)

/-- The normalization pass for one frame (lines 246-248):
`data[si + chi] -= data[si]` for `chi = 1 .. NCHANNELS-1`, performed
in place and in order, exactly as the source's sequential updates. -/
def normFrame (d : ℕ → ℤ) : ℕ → ℤ :=
  (List.range' 1 (NCHANNELS - 1)).foldl
    (fun f chi => Function.update f chi (f chi - f 0)) d

/-- The frame containing flat index `i` of a chunk. -/
def frameOf (arr : ℕ → ℤ) (i : ℕ) : ℕ → ℤ :=
  fun c => arr (i / NCHANNELS * NCHANNELS + c)

/-- The flat chunk contents after the rotation pass (the outer `si` loop on
line 238 ranges over the frame bases `0, NCHANNELS, 2*NCHANNELS, ...`). -/
def rotatedData (arr : ℕ → ℤ) (mic_offs : ℕ) : ℕ → ℤ :=
  fun i => rotateFrame (frameOf arr i) mic_offs (i % NCHANNELS)

/-- The flat chunk contents after the rotation pass followed by the
normalization pass (the outer `si` loop on line 246). -/
def variantData (arr : ℕ → ℤ) (mic_offs : ℕ) : ℕ → ℤ :=
  fun i => normFrame (fun c => rotatedData arr mic_offs (i / NCHANNELS * NCHANNELS + c))
    (i % NCHANNELS)

/-- The `OUT_DATASET_NWORDS` words of the Variant for rotation offset
`mic_offs` built from the chunk `arr` (lines 221-248). -/
def variantList (arr : List ℤ) (mic_offs : ℕ) : List ℤ :=
  (List.range OUT_DATASET_NWORDS).map
    (fun i => variantData (fun j => arr.getD j 0) mic_offs i)

/-- `dataset_output::save_chunk` (lines 214-252): a Silence chunk is
dropped with result `false` before any write or `rand()` call; otherwise
one Variant per `mic_offs` is handed to `save_to_file` and the result is
`true`.  `rnd k` is the draw of the `std::rand()` call made inside the
`k`-th `save_to_file` invocation. -/
def dataset_save_chunk (arr : List ℤ) (chunk_i : ℕ) (is_sil : Bool)
    (rnd : ℕ → ℕ) : Bool × List OutRecord :=
  if is_sil then (false, [])
  else
    (true,
      ((List.range NCHANNELS).map (fun mic_offs =>
        save_to_file (rnd mic_offs) (OutDir.angleDir mic_offs)
          (variantList arr mic_offs) chunk_i)).flatten)

/-- Feeding a classified chunk list into a directional sink, threading the
`std::rand()` stream: a Silence chunk consumes no draws, a Signal chunk
consumes `NCHANNELS` draws (one per `save_to_file` call).  Returns the
records written and the next unread stream position. -/
def run_directional_chunks (buf : List ℤ) (chunks : List (ℕ × Bool))
    (rand : ℕ → ℕ) (ctr : ℕ) : List OutRecord × ℕ :=
  match chunks with
  | [] => ([], ctr)
  | (i, s) :: rest =>
    let recs := (dataset_save_chunk (chunkAt buf i) i s (fun k => rand (ctr + k))).2
    let ctr2 := if s then ctr else ctr + NCHANNELS
    let next := run_directional_chunks buf rest rand ctr2
    (recs ++ next.1, next.2)

/-- The channel permutation performed by the rotation pass, as a function
on channel indices: channel `c` is sent to channel `(c + r) % NCHANNELS`. -/
def rot_index (r : ℕ) (c : Fin NCHANNELS) : Fin NCHANNELS :=
  ⟨((c : ℕ) + r) % NCHANNELS, Nat.mod_lt _ (by norm_num [NCHANNELS])⟩

/-! ### General helper lemmas -/

lemma countP_replicate {α : Type} (p : α → Bool) (n : ℕ) (a : α) :
    (List.replicate n a).countP p = if p a then n else 0 := by
  induction n with
  | zero => simp
  | succ n ih =>
    simp [List.replicate_succ, List.countP_cons, ih]
    split <;> simp_all

lemma foldl_max_replicate_zero (n m : ℕ) :
    (List.replicate n (0 : ℕ)).foldl max m = m := by
  induction n generalizing m with
  | zero => simp
  | succ n ih => simp [List.replicate_succ, ih]

lemma le_foldl_max (l : List ℕ) (m : ℕ) : m ≤ l.foldl max m := by
  induction l generalizing m with
  | nil => simp
  | cons b u ihu => exact le_trans (le_max_left m b) (ihu (max m b))

lemma foldl_max_mem (l : List ℕ) (m : ℕ) : l.foldl max m = m ∨ l.foldl max m ∈ l := by
  induction l generalizing m with
  | nil => left; rfl
  | cons a t ih =>
    rcases ih (max m a) with h | h
    · rcases max_choice m a with h2 | h2
      · left; rw [List.foldl_cons, h, h2]
      · right; rw [List.foldl_cons, h, h2]; exact List.mem_cons_self a t
    · right; exact List.mem_cons_of_mem a h

lemma mem_le_foldl_max (l : List ℕ) (m x : ℕ) (hx : x ∈ l) : x ≤ l.foldl max m := by
  induction l generalizing m with
  | nil => cases hx
  | cons a t ih =>
    rcases List.mem_cons.mp hx with rfl | hmem
    · exact le_trans (le_max_right m x) (le_foldl_max t (max m x))
    · exact ih (max m a) hmem

/-! ### Evaluation lemmas for the embedded constants -/

lemma range_nch : List.range NCHANNELS = [0, 1, 2, 3, 4, 5, 6, 7] := rfl

lemma range'_nch : List.range' 1 (NCHANNELS - 1) = [1, 2, 3, 4, 5, 6, 7] := rfl

lemma chunk_len_eq : chunk_len = 4096 := rfl

lemma secs2offs_skip : secs2offs INITIAL_SKIP_S = 96000 := by
  norm_num [secs2offs, INITIAL_SKIP_S, SAMPLES_PER_SECOND, NCHANNELS]

lemma secs2offs_train : secs2offs SILENCE_TRAINING_S = 192000 := by
  norm_num [secs2offs, SILENCE_TRAINING_S, SAMPLES_PER_SECOND, NCHANNELS]

lemma nvals_threshold_eq : nvals_threshold = 409 := by
  norm_num [nvals_threshold, chunk_len, OUT_NSAMPLES, NCHANNELS, VALID_SAMPLES_PERCENT,
    Int.floor_eq_iff]

lemma silence_threshold_zero : silence_threshold 0 = 0 := by
  norm_num [silence_threshold]

/-! ### The chunk iteration -/

lemma chunkStarts_closed_form (len i : ℕ) :
    chunkStarts len i =
      (List.range ((len - i) / chunk_len)).map (fun k => i + k * chunk_len) := by
  suffices H : ∀ d len i : ℕ, len - i ≤ d →
      chunkStarts len i =
        (List.range ((len - i) / chunk_len)).map (fun k => i + k * chunk_len) from
    H (len - i) len i le_rfl
  intro d
  induction d with
  | zero =>
    intro len i hd
    have hguard : ¬ ((i : ℤ) ≤ (len : ℤ) - (chunk_len : ℤ)) := by
      simp only [chunk_len_eq] at *
      push_cast
      omega
    rw [chunkStarts, dif_neg hguard]
    have : (len - i) / chunk_len = 0 := by
      simp only [chunk_len_eq]
      omega
    rw [this]
    simp
  | succ d ih =>
    intro len i hd
    by_cases hguard : (i : ℤ) ≤ (len : ℤ) - (chunk_len : ℤ)
    · have hguard4 : (i : ℤ) ≤ (len : ℤ) - 4096 := by
        simpa only [chunk_len_eq] using hguard
      have hrec : len - (i + chunk_len) ≤ d := by
        simp only [chunk_len_eq]
        omega
      rw [chunkStarts, dif_pos hguard, ih len (i + chunk_len) hrec]
      simp only [chunk_len_eq]
      have hn : (len - i) / 4096 = (len - (i + 4096)) / 4096 + 1 := by
        omega
      rw [hn, List.range_succ_eq_map, List.map_cons, List.map_map]
      have h0 : i + 0 * 4096 = i := by omega
      rw [h0]
      congr 1
      apply List.map_congr_left
      intro k _
      simp only [Function.comp_apply, Nat.succ_eq_add_one]
      ring
    · rw [chunkStarts, dif_neg hguard]
      have h0 : (len - i) / chunk_len = 0 := by
        simp only [chunk_len_eq] at *
        omega
      rw [h0]
      simp

lemma mem_chunkStarts (len i o : ℕ) (h : o ∈ chunkStarts len i) :
    o + chunk_len ≤ len := by
  rw [chunkStarts_closed_form] at h
  rcases List.mem_map.mp h with ⟨k, hk, rfl⟩
  have := List.mem_range.mp hk
  simp only [chunk_len_eq] at *
  omega

lemma chunkAt_length (buf : List ℤ) (i : ℕ) (h : i + chunk_len ≤ buf.length) :
    (chunkAt buf i).length = chunk_len := by
  simp only [chunkAt, List.length_take, List.length_drop]
  omega

/-! ### Evaluating `process_raw_audio_file` when the buffer is long enough -/

lemma process_eq_ok (buf : List ℤ) (h : 288000 < buf.length) :
    process_raw_audio_file buf =
      Except.ok ⟨silence_threshold (silence_max buf 96000 288000),
        (chunkStarts buf.length 288000).map
          (fun i => (i, is_silence (silence_threshold (silence_max buf 96000 288000))
            (chunkAt buf i)))⟩ := by
  simp only [process_raw_audio_file, secs2offs_skip, secs2offs_train]
  norm_num
  rw [if_neg (show ¬ (buf.length ≤ 96000 ∨ buf.length ≤ 288000) by omega)]
  have h1 : (96000 : ℤ).toNat = 96000 := rfl
  have h2 : (288000 : ℤ).toNat = 288000 := rfl
  simp only [h1, h2]

lemma process_error_of_short (buf : List ℤ)
    (h : (buf.length : ℤ) ≤ secs2offs INITIAL_SKIP_S + secs2offs SILENCE_TRAINING_S) :
    process_raw_audio_file buf = Except.error "input file is too short" := by
  have hguard : secs2offs INITIAL_SKIP_S ≥ (buf.length : ℤ) ∨
      secs2offs INITIAL_SKIP_S + secs2offs SILENCE_TRAINING_S ≥ (buf.length : ℤ) :=
    Or.inr h
  simp only [process_raw_audio_file, if_pos hguard]

lemma silence_max_of_window_zero (buf : List ℤ)
    (h : ∀ v ∈ (buf.drop 96000).take 192000, v = 0) :
    silence_max buf 96000 288000 = 0 := by
  unfold silence_max
  rcases foldl_max_mem ((((buf.drop 96000).take (288000 - 96000)).map Int.natAbs)) 0 with
    h0 | hm
  · exact h0
  · rcases List.mem_map.mp hm with ⟨v, hv, hval⟩
    rw [← hval, h v (by simpa using hv)]
    rfl

lemma process_replicate_zero :
    process_raw_audio_file (List.replicate 288001 (0 : ℤ)) = Except.ok ⟨0, []⟩ := by
  have hmax : silence_max (List.replicate 288001 (0 : ℤ)) 96000 288000 = 0 := by
    apply silence_max_of_window_zero
    intro v hv
    simp only [List.drop_replicate, List.take_replicate] at hv
    exact List.eq_of_mem_replicate hv
  have hstarts : chunkStarts 288001 288000 = [] := by
    rw [chunkStarts_closed_form]
    norm_num [chunk_len_eq]
  have hlen : (List.replicate 288001 (0 : ℤ)).length = 288001 :=
    List.length_replicate ..
  rw [process_eq_ok _ (by rw [hlen]; norm_num), hmax, silence_threshold_zero, hlen,
    hstarts, List.map_nil]

/-! ### The channel rotation and normalization passes -/

lemma normFrame_zero (d : ℕ → ℤ) : normFrame d 0 = d 0 := by
  simp +decide [normFrame, range'_nch, List.foldl, Function.update_apply]

lemma normFrame_apply (d : ℕ → ℤ) (c : ℕ) (h1 : 1 ≤ c) (hc : c < NCHANNELS) :
    normFrame d c = d c - d 0 := by
  simp only [NCHANNELS] at hc
  interval_cases c <;>
    simp +decide [normFrame, range'_nch, List.foldl, Function.update_apply]

lemma rotateFrame_mod (arr : ℕ → ℤ) (r : ℕ) :
    rotateFrame arr r = rotateFrame arr (r % NCHANNELS) := by
  unfold rotateFrame
  congr 1
  funext data chi
  have h : (chi + r) % NCHANNELS = (chi + r % NCHANNELS) % NCHANNELS := by
    simp only [NCHANNELS]
    omega
  rw [h]

lemma rotateFrame_place (arr : ℕ → ℤ) (r : ℕ) (hr : r < NCHANNELS) (c : ℕ)
    (hc : c < NCHANNELS) :
    rotateFrame arr r ((c + r) % NCHANNELS) = arr c := by
  simp only [NCHANNELS] at hr hc
  interval_cases r <;> interval_cases c <;>
    simp +decide [rotateFrame, range_nch, NCHANNELS, List.foldl, Function.update_apply]

lemma rotateFrame_apply (arr : ℕ → ℤ) (r : ℕ) (hr : r < NCHANNELS) (c : ℕ)
    (hc : c < NCHANNELS) :
    rotateFrame arr r c = arr ((c + (NCHANNELS - r)) % NCHANNELS) := by
  simp only [NCHANNELS] at hr hc ⊢
  interval_cases r <;> interval_cases c <;>
    simp +decide [rotateFrame, range_nch, NCHANNELS, List.foldl, Function.update_apply]

lemma rotateFrame_roundtrip (arr : ℕ → ℤ) (r : ℕ) (hr : r < NCHANNELS) (c : ℕ)
    (hc : c < NCHANNELS) :
    rotateFrame (rotateFrame arr r) (NCHANNELS - r) c = arr c := by
  have hpos : 0 < NCHANNELS := by norm_num [NCHANNELS]
  rw [rotateFrame_mod _ (NCHANNELS - r)]
  rw [rotateFrame_apply _ _ (Nat.mod_lt _ hpos) c hc]
  rw [rotateFrame_apply arr r hr _ (Nat.mod_lt _ hpos)]
  congr 1
  simp only [NCHANNELS] at *
  omega

lemma rot_index_bijective (r : ℕ) : Function.Bijective (rot_index r) := by
  have hinj : Function.Injective (rot_index r) := by
    intro a b hab
    have hv := congrArg Fin.val hab
    simp only [rot_index] at hv
    have ha := a.isLt
    have hb := b.isLt
    apply Fin.ext
    simp only [NCHANNELS] at *
    omega
  exact Finite.injective_iff_bijective.mp hinj

lemma rotatedData_place (arr : ℕ → ℤ) (r : ℕ) (hr : r < NCHANNELS) (f c : ℕ)
    (hc : c < NCHANNELS) :
    rotatedData arr r (f * NCHANNELS + (c + r) % NCHANNELS) = arr (f * NCHANNELS + c) := by
  have hmod : (f * NCHANNELS + (c + r) % NCHANNELS) % NCHANNELS = (c + r) % NCHANNELS := by
    simp only [NCHANNELS]
    omega
  have hdiv : (f * NCHANNELS + (c + r) % NCHANNELS) / NCHANNELS * NCHANNELS
      = f * NCHANNELS := by
    simp only [NCHANNELS]
    omega
  simp only [rotatedData, hmod]
  rw [rotateFrame_place _ _ hr _ hc]
  simp only [frameOf, hdiv]

lemma variantData_frame (arr : ℕ → ℤ) (r f c : ℕ) (hc : c < NCHANNELS) :
    variantData arr r (f * NCHANNELS + c) =
      normFrame (fun k => rotatedData arr r (f * NCHANNELS + k)) c := by
  have hc8 : c < 8 := by simpa only [NCHANNELS] using hc
  have hmod : (f * NCHANNELS + c) % NCHANNELS = c := by
    simp only [NCHANNELS]
    omega
  have hdiv : (f * NCHANNELS + c) / NCHANNELS * NCHANNELS = f * NCHANNELS := by
    simp only [NCHANNELS]
    omega
  simp only [variantData, hmod, hdiv]

/-! ### Sink helpers -/

lemma flatten_map_filter {α : Type} (L : List α) (f : α → ℕ) (g : α → OutRecord) :
    (L.map (fun m =>
      if f m % 100 < OUT_DROP_PERCENT then ([] : List OutRecord) else [g m])).flatten =
      (L.filter (fun m => decide (OUT_DROP_PERCENT ≤ f m % 100))).map g := by
  induction L with
  | nil => rfl
  | cons a t ih =>
    by_cases h : f a % 100 < OUT_DROP_PERCENT
    · have hd : decide (OUT_DROP_PERCENT ≤ f a % 100) = false := by
        simp only [OUT_DROP_PERCENT] at *
        simp
        omega
      simp [h, hd, ih, List.filter_cons]
    · have hd : decide (OUT_DROP_PERCENT ≤ f a % 100) = true := by
        simp only [OUT_DROP_PERCENT] at *
        simp
        omega
      simp [h, hd, ih, List.filter_cons]

lemma run_directional_all_silence (buf : List ℤ) (chunks : List (ℕ × Bool))
    (h : ∀ p ∈ chunks, p.2 = true) (rand : ℕ → ℕ) (ctr : ℕ) :
    (run_directional_chunks buf chunks rand ctr).1 = [] := by
  induction chunks generalizing ctr with
  | nil => rfl
  | cons p rest ih =>
    obtain ⟨i, s⟩ := p
    have hs : s = true := h (i, s) (List.mem_cons_self _ _)
    subst hs
    simp only [run_directional_chunks, dataset_save_chunk, if_pos rfl, if_true]
    rw [ih (fun q hq => h q (List.mem_cons_of_mem _ hq)) ctr]
    rfl

lemma is_silence_zero_thr (chunk : List ℤ) (h : chunk.length = chunk_len) :
    is_silence 0 chunk = true := by
  have hcount : nvals 0 chunk = chunk.length :=
    List.countP_eq_length.mpr (fun a _ => by simp [cmp_to_threshold])
  rw [is_silence, hcount, h, chunk_len_eq, nvals_threshold_eq]
  norm_num

lemma silence_threshold_closed (n : ℕ) :
    silence_threshold n = ((n * 9227469) / 8388608 : ℕ) := by
  unfold silence_threshold VALID_SAMPLE_THRESHOLD
  rw [← mul_div_assoc]
  have h := Rat.floor_intCast_div_natCast (n * 9227469 : ℕ) 8388608
  push_cast at h ⊢
  rw [← h]

lemma silence_max_ub (buf : List ℤ) (v : ℤ)
    (hv : v ∈ (buf.drop 96000).take 192000) :
    v.natAbs ≤ silence_max buf 96000 288000 := by
  have h192 : (288000 : ℕ) - 96000 = 192000 := by norm_num
  unfold silence_max
  rw [h192]
  exact mem_le_foldl_max _ 0 _ (List.mem_map_of_mem Int.natAbs hv)

lemma silence_max_attained (buf : List ℤ) (h : 288000 < buf.length) :
    ∃ v ∈ (buf.drop 96000).take 192000,
      v.natAbs = silence_max buf 96000 288000 := by
  have h192 : (288000 : ℕ) - 96000 = 192000 := by norm_num
  have hne : (buf.drop 96000).take 192000 ≠ [] := by
    have hl : ((buf.drop 96000).take 192000).length = 192000 := by
      rw [List.length_take, List.length_drop]
      omega
    intro hnil
    rw [hnil] at hl
    simp at hl
  rcases foldl_max_mem (((buf.drop 96000).take (288000 - 96000)).map Int.natAbs) 0 with
    h0 | hm
  · obtain ⟨w, hw⟩ := List.exists_mem_of_ne_nil _ hne
    refine ⟨w, hw, ?_⟩
    have hub := silence_max_ub buf w hw
    unfold silence_max at hub ⊢
    rw [h192] at *
    omega
  · rw [h192] at hm
    rcases List.mem_map.mp hm with ⟨v, hv, hval⟩
    refine ⟨v, hv, ?_⟩
    unfold silence_max
    rw [h192]
    exact hval

/-! ### Claim theorems -/

/-- Claim C1, counterexample: the code's silence cutoff is
`int(4096 * 10 / 100.0) = 409` (truncation), not `ceil(409.6) = 410` as the
claim states.  With silence threshold 5, a 4096-sample chunk holding exactly
409 samples of amplitude 5 is labelled Silence by the code, while the
claim's ceiling rule would require 410 qualifying samples. -/
theorem C1_counterexample :
    is_silence 5 (List.replicate 409 (5 : ℤ) ++ List.replicate 3687 0) = true ∧
    ¬ ((⌈(chunk_len : ℚ) * VALID_SAMPLES_PERCENT / 100⌉ : ℤ) ≤
        (nvals 5 (List.replicate 409 (5 : ℤ) ++ List.replicate 3687 0) : ℤ)) := by
  have hn : nvals 5 (List.replicate 409 (5 : ℤ) ++ List.replicate 3687 0) = 409 := by
    rw [nvals, List.countP_append, countP_replicate, countP_replicate]
    norm_num [cmp_to_threshold]
  constructor
  · rw [is_silence, hn, nvals_threshold_eq]
    norm_num
  · rw [hn]
    have hq : ((chunk_len : ℚ) * VALID_SAMPLES_PERCENT / 100) = 2048 / 5 := by
      norm_num [chunk_len, OUT_NSAMPLES, NCHANNELS, VALID_SAMPLES_PERCENT]
    have hceil : (⌈(2048 : ℚ) / 5⌉ : ℤ) = 410 := by
      rw [Int.ceil_eq_iff]
      norm_num
    rw [hq, hceil]
    norm_num

/-- Claim C1 (corrected): for every chunk, the classifier counts the samples
whose absolute value is at least the silence threshold (`nvals` with
`cmp_to_threshold`), and labels the chunk Silence exactly when that count is
at least `floor(F * valid_fraction / 100)` — the truncated value 409, not
the ceiling 410. -/
theorem C1_amended (thr : ℤ) (chunk : List ℤ) :
    (is_silence thr chunk = true ↔
      (⌊(chunk_len : ℚ) * VALID_SAMPLES_PERCENT / 100⌋ : ℤ) ≤ (nvals thr chunk : ℤ)) ∧
    (⌊(chunk_len : ℚ) * VALID_SAMPLES_PERCENT / 100⌋ : ℤ) = 409 ∧
    (⌈(chunk_len : ℚ) * VALID_SAMPLES_PERCENT / 100⌉ : ℤ) = 410 := by
  refine ⟨?_, ?_, ?_⟩
  · rw [is_silence, nvals_threshold]
    exact decide_eq_true_iff
  · exact nvals_threshold_eq
  · have hq : ((chunk_len : ℚ) * VALID_SAMPLES_PERCENT / 100) = 2048 / 5 := by
      norm_num [chunk_len, OUT_NSAMPLES, NCHANNELS, VALID_SAMPLES_PERCENT]
    rw [hq, Int.ceil_eq_iff]
    norm_num

/-- Claim C2, counterexample: the silence sink's `save_chunk` returns `true`
even when the probabilistic drop (draw 0 < 95) suppresses the write, so the
return value is not "true iff a record was actually written". -/
theorem C2_counterexample :
    ¬ (((silence_save_chunk [] 0 true 0).1 = true) ↔
        (silence_save_chunk [] 0 true 0).2 ≠ []) := by
  simp [silence_save_chunk, save_to_file, OUT_DROP_PERCENT]

/-- Claim C2 (corrected): `submit` reports whether the sink accepted the
chunk, not whether a record reached disk: the silence sink always returns
`true`, and the directional sink returns `true` exactly when the label is
Signal; in either case the per-write probabilistic drop may leave the write
set empty.  (Conversely, a nonempty write set does come with result
`true`.) -/
theorem C2_amended (arr : List ℤ) (chunk_i : ℕ) (s : Bool) (rnd : ℕ)
    (rnds : ℕ → ℕ) :
    (silence_save_chunk arr chunk_i s rnd).1 = true ∧
    ((dataset_save_chunk arr chunk_i s rnds).1 = true ↔ s = false) ∧
    ((dataset_save_chunk arr chunk_i s rnds).2 = [] ∨
      (dataset_save_chunk arr chunk_i s rnds).1 = true) := by
  refine ⟨rfl, ?_, ?_⟩ <;> cases s <;> simp [dataset_save_chunk]

/-- Claim C3 (confirmed): for every Signal chunk, rotation offset and frame,
the Variant's channel 0 equals the rotated raw sample at channel 0, and each
channel `c ≥ 1` equals the rotated raw sample at channel `c` minus the
rotated raw sample at channel 0 of the same frame. -/
theorem C3 (arr : ℕ → ℤ) (r : ℕ) (hr : r < NCHANNELS) (f c : ℕ)
    (h1 : 1 ≤ c) (hc : c < NCHANNELS) :
    variantData arr r (f * NCHANNELS) = rotatedData arr r (f * NCHANNELS) ∧
    variantData arr r (f * NCHANNELS + c) =
      rotatedData arr r (f * NCHANNELS + c) - rotatedData arr r (f * NCHANNELS) := by
  constructor
  · have h := variantData_frame arr r f 0 (by norm_num [NCHANNELS])
    rw [Nat.add_zero] at h
    rw [h, normFrame_zero]
    simp
  · rw [variantData_frame arr r f c hc, normFrame_apply _ c h1 hc]
    simp

/-- Concrete instance of C3 at rotation offset 3, frame 2, channel 5. -/
theorem C3_witness :
    3 < NCHANNELS ∧ 1 ≤ 5 ∧ 5 < NCHANNELS ∧
    (variantData (fun i => (i : ℤ)) 3 (2 * NCHANNELS) =
        rotatedData (fun i => (i : ℤ)) 3 (2 * NCHANNELS) ∧
      variantData (fun i => (i : ℤ)) 3 (2 * NCHANNELS + 5) =
        rotatedData (fun i => (i : ℤ)) 3 (2 * NCHANNELS + 5) -
          rotatedData (fun i => (i : ℤ)) 3 (2 * NCHANNELS)) :=
  ⟨by norm_num [NCHANNELS], by norm_num, by norm_num [NCHANNELS],
    C3 (fun i => (i : ℤ)) 3 (by norm_num [NCHANNELS]) 2 5 (by norm_num)
      (by norm_num [NCHANNELS])⟩

/-- Claim C4 (confirmed): the rotation pass places the sample originally at
channel `c` at channel `(c + r) % NCHANNELS` (per frame, and for the flat
chunk), that channel map is a bijection, and rotating by `r` and then by
`NCHANNELS - r` restores the original channel ordering. -/
theorem C4 (frame arr : ℕ → ℤ) (r c f : ℕ) (hr : r < NCHANNELS)
    (hc : c < NCHANNELS) :
    rotateFrame frame r ((c + r) % NCHANNELS) = frame c ∧
    Function.Bijective (rot_index r) ∧
    rotateFrame (rotateFrame frame r) (NCHANNELS - r) c = frame c ∧
    rotatedData arr r (f * NCHANNELS + (c + r) % NCHANNELS) =
      arr (f * NCHANNELS + c) :=
  ⟨rotateFrame_place frame r hr c hc, rot_index_bijective r,
    rotateFrame_roundtrip frame r hr c hc, rotatedData_place arr r hr f c hc⟩

/-- Concrete instance of C4 at rotation offset 3, channel 6, frame 1. -/
theorem C4_witness :
    3 < NCHANNELS ∧ 6 < NCHANNELS ∧
    (rotateFrame (fun i => (i : ℤ)) 3 ((6 + 3) % NCHANNELS) =
        (fun i => (i : ℤ)) 6 ∧
      Function.Bijective (rot_index 3) ∧
      rotateFrame (rotateFrame (fun i => (i : ℤ)) 3) (NCHANNELS - 3) 6 =
        (fun i => (i : ℤ)) 6 ∧
      rotatedData (fun i => (i : ℤ)) 3 (1 * NCHANNELS + (6 + 3) % NCHANNELS) =
        (fun i => (i : ℤ)) (1 * NCHANNELS + 6)) :=
  ⟨by norm_num [NCHANNELS], by norm_num [NCHANNELS],
    C4 (fun i => (i : ℤ)) (fun i => (i : ℤ)) 3 6 1 (by norm_num [NCHANNELS])
      (by norm_num [NCHANNELS])⟩

/-- Claim C5 (confirmed): for a sufficiently long recording, calibration
succeeds; the skip and training durations convert to offsets by
`floor(rate * seconds) * channels` (evaluating to 96000 and 288000 words);
the scan takes the maximum absolute sample over `[96000, 288000)` (it is an
upper bound of the window and is attained in it); and the silence threshold
is that maximum scaled by `VALID_SAMPLE_THRESHOLD` (the C constant 1.1f)
and truncated, i.e. `(max * 9227469) / 8388608`. -/
theorem C5 (buf : List ℤ) (h : 288000 < buf.length) :
    ∃ res, process_raw_audio_file buf = Except.ok res ∧
      res.threshold = ⌊(silence_max buf 96000 288000 : ℚ) * VALID_SAMPLE_THRESHOLD⌋ ∧
      res.threshold = ((silence_max buf 96000 288000 * 9227469) / 8388608 : ℕ) ∧
      (∀ v ∈ (buf.drop 96000).take 192000,
        v.natAbs ≤ silence_max buf 96000 288000) ∧
      (∃ v ∈ (buf.drop 96000).take 192000,
        v.natAbs = silence_max buf 96000 288000) ∧
      secs2offs INITIAL_SKIP_S = ⌊(SAMPLES_PER_SECOND : ℚ) * INITIAL_SKIP_S⌋ * NCHANNELS ∧
      secs2offs INITIAL_SKIP_S = 96000 ∧
      secs2offs INITIAL_SKIP_S + secs2offs SILENCE_TRAINING_S = 288000 :=
  ⟨_, process_eq_ok buf h, rfl, silence_threshold_closed _,
    fun v hv => silence_max_ub buf v hv, silence_max_attained buf h,
    rfl, secs2offs_skip, by rw [secs2offs_skip, secs2offs_train]; norm_num⟩

/-- Concrete instance of C5 on an all-zero recording of 288001 words. -/
theorem C5_witness :
    288000 < (List.replicate 288001 (0 : ℤ)).length ∧
    ∃ res, process_raw_audio_file (List.replicate 288001 (0 : ℤ)) = Except.ok res ∧
      res.threshold =
        ⌊(silence_max (List.replicate 288001 (0 : ℤ)) 96000 288000 : ℚ) *
          VALID_SAMPLE_THRESHOLD⌋ ∧
      res.threshold =
        ((silence_max (List.replicate 288001 (0 : ℤ)) 96000 288000 * 9227469) /
          8388608 : ℕ) ∧
      (∀ v ∈ ((List.replicate 288001 (0 : ℤ)).drop 96000).take 192000,
        v.natAbs ≤ silence_max (List.replicate 288001 (0 : ℤ)) 96000 288000) ∧
      (∃ v ∈ ((List.replicate 288001 (0 : ℤ)).drop 96000).take 192000,
        v.natAbs = silence_max (List.replicate 288001 (0 : ℤ)) 96000 288000) ∧
      secs2offs INITIAL_SKIP_S = ⌊(SAMPLES_PER_SECOND : ℚ) * INITIAL_SKIP_S⌋ * NCHANNELS ∧
      secs2offs INITIAL_SKIP_S = 96000 ∧
      secs2offs INITIAL_SKIP_S + secs2offs SILENCE_TRAINING_S = 288000 := by
  have h : 288000 < (List.replicate 288001 (0 : ℤ)).length := by
    rw [List.length_replicate]
    norm_num
  exact ⟨h, C5 _ h⟩

/-- Claim C6, counterexample: doubling the training-window peak does not
exactly double the threshold: peak 5 gives threshold 5, peak 10 gives
threshold 11 (the float factor 1.1f truncates differently). -/
theorem C6_counterexample :
    silence_threshold 5 = 5 ∧ silence_threshold (2 * 5) = 11 ∧
    silence_threshold (2 * 5) ≠ 2 * silence_threshold 5 := by
  have h5 : silence_threshold 5 = 5 := by
    norm_num [silence_threshold, VALID_SAMPLE_THRESHOLD, Int.floor_eq_iff]
  have h10 : silence_threshold 10 = 11 := by
    norm_num [silence_threshold, VALID_SAMPLE_THRESHOLD, Int.floor_eq_iff]
  have h2 : (2 * 5 : ℕ) = 10 := by norm_num
  refine ⟨h5, by rw [h2, h10], ?_⟩
  rw [h2, h10, h5]
  norm_num

/-- Claim C6 (corrected): the calibration threshold is monotone in the peak
absolute sample, and doubling the peak yields either exactly twice the
threshold or twice the threshold plus one (truncation of the scaled value
can absorb or release one unit). -/
theorem C6_amended (a b m : ℕ) (hab : a ≤ b) :
    silence_threshold a ≤ silence_threshold b ∧
    2 * silence_threshold m ≤ silence_threshold (2 * m) ∧
    silence_threshold (2 * m) ≤ 2 * silence_threshold m + 1 := by
  have hq : (0 : ℚ) ≤ VALID_SAMPLE_THRESHOLD := by norm_num [VALID_SAMPLE_THRESHOLD]
  unfold silence_threshold
  refine ⟨?_, ?_, ?_⟩
  · apply Int.floor_le_floor
    have hc : (a : ℚ) ≤ b := by exact_mod_cast hab
    exact mul_le_mul_of_nonneg_right hc hq
  · apply Int.le_floor.mpr
    have h1 := Int.floor_le ((m : ℚ) * VALID_SAMPLE_THRESHOLD)
    push_cast
    nlinarith
  · have h2 := Int.lt_floor_add_one ((m : ℚ) * VALID_SAMPLE_THRESHOLD)
    have h3 : ⌊((2 * m : ℕ) : ℚ) * VALID_SAMPLE_THRESHOLD⌋ <
        2 * ⌊(m : ℚ) * VALID_SAMPLE_THRESHOLD⌋ + 2 := by
      apply Int.floor_lt.mpr
      push_cast
      nlinarith
    omega

/-- Concrete instance of C6 (amended) at peaks 3 ≤ 7 and m = 5. -/
theorem C6_amended_witness :
    3 ≤ 7 ∧
    (silence_threshold 3 ≤ silence_threshold 7 ∧
      2 * silence_threshold 5 ≤ silence_threshold (2 * 5) ∧
      silence_threshold (2 * 5) ≤ 2 * silence_threshold 5 + 1) :=
  ⟨by norm_num, C6_amended 3 7 5 (by norm_num)⟩

/-- Claim C7 (confirmed): when processing succeeds, the classifier emits
chunks starting at offset 288000 (= train_end), at consecutive multiples of
`chunk_len`, exactly while a full chunk fits in the buffer — the emitted
offsets are `288000 + k * chunk_len` for `k < (len - 288000) / chunk_len`,
each emitted chunk holds exactly `chunk_len` samples inside the buffer, and
the trailing remainder produces no chunk. -/
theorem C7 (buf : List ℤ) (res : ProcessResult)
    (h : process_raw_audio_file buf = Except.ok res) :
    res.chunks.map Prod.fst =
      (List.range ((buf.length - 288000) / chunk_len)).map
        (fun k => 288000 + k * chunk_len) ∧
    ∀ p ∈ res.chunks, p.1 + chunk_len ≤ buf.length ∧
      (chunkAt buf p.1).length = chunk_len := by
  by_cases hlen : 288000 < buf.length
  · rw [process_eq_ok buf hlen] at h
    injection h with h2
    subst h2
    constructor
    · rw [List.map_map]
      have hid : (Prod.fst ∘ fun i => (i,
          is_silence (silence_threshold (silence_max buf 96000 288000))
            (chunkAt buf i))) = id := rfl
      rw [hid, List.map_id, chunkStarts_closed_form]
    · intro p hp
      rcases List.mem_map.mp hp with ⟨i, hi, rfl⟩
      have hb := mem_chunkStarts _ _ _ hi
      exact ⟨hb, chunkAt_length buf i hb⟩
  · exfalso
    have herr : process_raw_audio_file buf = Except.error "input file is too short" := by
      apply process_error_of_short
      rw [secs2offs_skip, secs2offs_train]
      push_cast
      omega
    rw [herr] at h
    exact Except.noConfusion h

/-- Concrete instance of C7 on an all-zero recording of 288001 words (whose
remainder of 1 word after train_end yields no chunk). -/
theorem C7_witness :
    process_raw_audio_file (List.replicate 288001 (0 : ℤ)) = Except.ok ⟨0, []⟩ ∧
    ((⟨0, []⟩ : ProcessResult).chunks.map Prod.fst =
      (List.range (((List.replicate 288001 (0 : ℤ)).length - 288000) / chunk_len)).map
        (fun k => 288000 + k * chunk_len) ∧
    ∀ p ∈ (⟨0, []⟩ : ProcessResult).chunks,
      p.1 + chunk_len ≤ (List.replicate 288001 (0 : ℤ)).length ∧
      (chunkAt (List.replicate 288001 (0 : ℤ)) p.1).length = chunk_len) :=
  ⟨process_replicate_zero, C7 _ _ process_replicate_zero⟩

/-- Claim C8 (confirmed): whenever the buffer length is at most
`skip_offset + train_offset` (= `secs2offs 0.5 + secs2offs 1.0` = 288000
words), processing takes the fatal branch: no chunks are classified and no
output is produced. -/
theorem C8 (buf : List ℤ)
    (h : (buf.length : ℤ) ≤ secs2offs INITIAL_SKIP_S + secs2offs SILENCE_TRAINING_S) :
    process_raw_audio_file buf = Except.error "input file is too short" :=
  process_error_of_short buf h

/-- Concrete instance of C8 at the boundary: a recording of exactly
`skip_offset + train_offset` = 288000 words fails calibration. -/
theorem C8_witness :
    ((List.replicate 288000 (0 : ℤ)).length : ℤ) ≤
      secs2offs INITIAL_SKIP_S + secs2offs SILENCE_TRAINING_S ∧
    process_raw_audio_file (List.replicate 288000 (0 : ℤ)) =
      Except.error "input file is too short" := by
  have h : ((List.replicate 288000 (0 : ℤ)).length : ℤ) ≤
      secs2offs INITIAL_SKIP_S + secs2offs SILENCE_TRAINING_S := by
    rw [secs2offs_skip, secs2offs_train, List.length_replicate]
    norm_num
  exact ⟨h, C8 _ h⟩

/-- Claim C9 (confirmed): the directional sink writes nothing for a
Silence-labelled chunk, and for a Signal-labelled chunk makes exactly
`NCHANNELS = 8` Variant write attempts, one per rotation offset, each kept
if and only if its own draw (mod 100, hence uniform over 0-99) is at least
`OUT_DROP_PERCENT`. -/
theorem C9 (arr : List ℤ) (chunk_i : ℕ) (rnds : ℕ → ℕ) :
    NCHANNELS = 8 ∧
    (dataset_save_chunk arr chunk_i true rnds).2 = [] ∧
    (dataset_save_chunk arr chunk_i false rnds).2 =
      ((List.range NCHANNELS).filter
        (fun m => decide (OUT_DROP_PERCENT ≤ rnds m % 100))).map
        (fun m => ⟨OutDir.angleDir m, chunk_i, variantList arr m⟩) := by
  refine ⟨rfl, rfl, ?_⟩
  simp only [dataset_save_chunk, Bool.false_eq_true, if_false, save_to_file]
  exact flatten_map_filter _ _ _

/-- Claim C10 (confirmed): if every sample of the calibration window
`[96000, 288000)` is zero, the silence threshold is 0, every chunk is
classified Silence (all 4096 absolute values are ≥ 0, and 4096 meets the
409-count rule), and a directional sink therefore writes no records at all
for the recording. -/
theorem C10 (buf : List ℤ) (h1 : 288000 < buf.length)
    (h2 : ∀ v ∈ (buf.drop 96000).take 192000, v = 0) :
    ∃ res, process_raw_audio_file buf = Except.ok res ∧
      res.threshold = 0 ∧
      (∀ p ∈ res.chunks, p.2 = true) ∧
      (∀ rand ctr, (run_directional_chunks buf res.chunks rand ctr).1 = []) := by
  have hmax : silence_max buf 96000 288000 = 0 := silence_max_of_window_zero buf h2
  have hsil : ∀ p ∈ (chunkStarts buf.length 288000).map
      (fun i => (i, is_silence (silence_threshold (silence_max buf 96000 288000))
        (chunkAt buf i))), p.2 = true := by
    intro p hp
    rcases List.mem_map.mp hp with ⟨i, hi, rfl⟩
    simp only
    rw [hmax, silence_threshold_zero]
    exact is_silence_zero_thr _ (chunkAt_length buf i (mem_chunkStarts _ _ _ hi))
  refine ⟨_, process_eq_ok buf h1, ?_, hsil, ?_⟩
  · simp only [hmax, silence_threshold_zero]
  · intro rand ctr
    exact run_directional_all_silence buf _ hsil rand ctr

/-- Concrete instance of C10 on an all-zero recording of 288001 words. -/
theorem C10_witness :
    288000 < (List.replicate 288001 (0 : ℤ)).length ∧
    (∀ v ∈ ((List.replicate 288001 (0 : ℤ)).drop 96000).take 192000, v = 0) ∧
    ∃ res, process_raw_audio_file (List.replicate 288001 (0 : ℤ)) = Except.ok res ∧
      res.threshold = 0 ∧
      (∀ p ∈ res.chunks, p.2 = true) ∧
      (∀ rand ctr,
        (run_directional_chunks (List.replicate 288001 (0 : ℤ)) res.chunks rand ctr).1 =
          []) := by
  have ha : 288000 < (List.replicate 288001 (0 : ℤ)).length := by
    rw [List.length_replicate]
    norm_num
  have hb : ∀ v ∈ ((List.replicate 288001 (0 : ℤ)).drop 96000).take 192000, v = 0 := by
    intro v hv
    simp only [List.drop_replicate, List.take_replicate] at hv
    exact List.eq_of_mem_replicate hv
  exact ⟨ha, hb, C10 _ ha hb⟩

end PrepareData
